import Mathlib

/-!
Verification of the scan/hash/diff/monitor core of the File_Integrity_Monitor
repository (src/fimsys.py), shallowly embedded in Lean 4.

Modelling conventions:
- A Python dict mapping relative paths to per-file records is an association
  list with first-match lookup; path-key sets are modelled by deduplicated
  key lists with decidable membership.
- The SHA-256 library primitive is an abstract parameter
  sha : List Nat -> String (a function of the file bytes only), since
  hashlib is external library code; compute_sha256 is embedded around it.
- Reading a file yields either its bytes or one of the OS error kinds that
  Python can raise from open/read; os.stat yields either (size, mtime) or a
  failure.  Metadata times are abstracted to integers (they are never
  compared arithmetically by the code).
- I/O that the Python code performs (logging, json.dump) is modelled by the
  value it computes (the change count, the serialized byte sequence).
-/

/-- Error kinds that a Python open/read of one file can raise.  The source
catches exactly PermissionError and FileNotFoundError (fimsys.py line 49). -/
inductive ReadError where
  | permissionError
  | fileNotFoundError
  | isADirectoryError
  | oSError
deriving DecidableEq, Repr

/-- Python type name of the exception, as used by the sentinel f-string
in compute_sha256 (fimsys.py line 50). -/
def ReadError.pyName : ReadError → String
  | .permissionError => "PermissionError"
  | .fileNotFoundError => "FileNotFoundError"
  | .isADirectoryError => "IsADirectoryError"
  | .oSError => "OSError"

/-- Outcome of opening and fully reading one file. -/
inductive ReadResult where
  | ok (bytes : List Nat)
  | err (e : ReadError)
deriving DecidableEq, Repr

/-- Embedding of compute_sha256 (fimsys.py lines 40-51): stream the bytes and
return the hex digest; the except clause catches only PermissionError and
FileNotFoundError, turning them into a sentinel string
<ERROR:TypeName>; any other exception propagates (modelled as Except.error). -/
def compute_sha256 (sha : List Nat → String) (r : ReadResult) : Except ReadError String :=
  match r with
  | .ok bytes => .ok (sha bytes)
  | .err .permissionError => .ok ("<ERROR:" ++ ReadError.permissionError.pyName ++ ">")
  | .err .fileNotFoundError => .ok ("<ERROR:" ++ ReadError.fileNotFoundError.pyName ++ ">")
  | .err e => .error e

/-- Embedding of get_file_metadata (fimsys.py lines 54-62): os.stat either
succeeds with (st_size, st_mtime) or any exception yields both fields None. -/
def get_file_metadata (stat : Option (Nat × Int)) : Option Nat × Option Int :=
  match stat with
  | some (sz, mt) => (some sz, some mt)
  | none => (none, none)

/-- Per-path record stored in a snapshot's files mapping.  The hash field is
Option String because the code reads it with dict.get, which yields None when
the key is absent in a loaded baseline document. -/
structure FileRecord where
  hash : Option String
  size : Option Nat
  mtime : Option Int
deriving DecidableEq, Repr

/-- A files mapping: relative path keys to records, dict semantics given by
first-match lookup. -/
abbrev Files := List (String × FileRecord)

/-- Lookup of a key in a files mapping (Python dict indexing / .get). -/
def lookupF (fs : Files) (k : String) : Option FileRecord :=
  match fs with
  | [] => none
  | p :: rest => if p.1 = k then some p.2 else lookupF rest k

/-- Key list of a files mapping. -/
def fkeys (fs : Files) : List String := fs.map (fun p => p.1)

/-- Deduplicated key list, modelling set(files.keys()). -/
def keySet (fs : Files) : List String := (fkeys fs).dedup

/-- A baseline document as the rest of the code sees it: loaded JSON may lack
any of the keys, so every field is optional.  compare_baseline_and_current
only reads the files key via baseline.get with default {}. -/
structure BaselineJson where
  generated_at : Option String
  root : Option String
  files : Option Files
deriving DecidableEq, Repr

/-- Embedding of the diff result dict built by compare_baseline_and_current. -/
structure DiffResult where
  added : List (String × FileRecord)
  deleted : List (String × FileRecord)
  modified : List (String × FileRecord × FileRecord)
deriving DecidableEq, Repr

/-- Extraction of base_files (fimsys.py line 135): baseline.get of the files
key with default {} when baseline is truthy, else {}.  A None baseline and a
document without a files key both yield the empty mapping (an empty dict is
falsy in Python, and yields the empty mapping through either branch). -/
def base_files_of (baseline : Option BaselineJson) : Files :=
  match baseline with
  | none => []
  | some b => b.files.getD []

/-- Embedding of compare_baseline_and_current (fimsys.py lines 133-150).
Added keys are current-minus-baseline, deleted keys baseline-minus-current,
and a common key is modified iff the hash fields (read with dict.get) differ.
Each added entry carries the current record, each deleted entry the baseline
record, each modified entry both.  The Python indexing current[k] and
base_files[k] is total on these key sets; the embedding realizes it with
lookupF via filterMap, which drops nothing because every key filtered in
does occur in the corresponding mapping. -/
def compare_baseline_and_current (baseline : Option BaselineJson) (current : Files) : DiffResult :=
  { added := ((keySet current).filter
        (fun k => ¬ k ∈ keySet (base_files_of baseline))).filterMap
      (fun k => (lookupF current k).map (fun r => (k, r)))
    deleted := ((keySet (base_files_of baseline)).filter
        (fun k => ¬ k ∈ keySet current)).filterMap
      (fun k => (lookupF (base_files_of baseline) k).map (fun r => (k, r)))
    modified := ((keySet (base_files_of baseline)).filter
        (fun k => k ∈ keySet current)).filterMap
      (fun k =>
        match lookupF (base_files_of baseline) k, lookupF current k with
        | some rb, some rc => if rb.hash ≠ rc.hash then some (k, rb, rc) else none
        | _, _ => none) }

/-- Embedding of print_and_log_diffs (fimsys.py lines 153-172) as the change
count it returns: one increment per added, deleted or modified entry; the
logging itself is I/O and not modelled. -/
def print_and_log_diffs (d : DiffResult) : Nat :=
  d.added.length + d.deleted.length + d.modified.length

/-- Path join with the canonical separator, modelling os.path.join as used on
paths produced by os.walk. -/
def pjoin (a b : String) : String := a ++ "/" ++ b

/-- Base name of a path: the component after the last separator, modelling
os.path.basename on the joined paths the scanner produces. -/
def basename (p : String) : String := (p.splitOn "/").getLastD ""

/-- Relative-path accumulation: os.path.relpath(join(root, suffix), root) is
the suffix itself, built up one component at a time during the walk. -/
def relJoin (rel n : String) : String := if rel = "" then n else rel ++ "/" ++ n

/-- Embedding of should_exclude (fimsys.py lines 69-73).  The fnmatch.fnmatch
library primitive is an abstract parameter m (path, pattern); a path is
excluded when some pattern matches either the full path or its base name. -/
def should_exclude (m : String → String → Bool) (path : String) (ps : List String) : Bool :=
  ps.any (fun pat => m path pat || m (basename path) pat)

/-- A directory tree as os.walk sees it: each directory entry is a regular
file (with the outcome of reading it and of os.stat on it baked in, since the
scan visits each file once) or a subdirectory with its entries. -/
inductive Entry where
  | file (name : String) (read : ReadResult) (stat : Option (Nat × Int))
  | dir (name : String) (children : List Entry)
deriving Repr

/-- A file retained by the traversal: its full path (os.path.join of root and
components), its path relative to the scan root, and its read/stat outcomes. -/
structure VisitedFile where
  full : String
  rel : String
  read : ReadResult
  stat : Option (Nat × Int)
deriving DecidableEq, Repr

/-- Traversal of build_baseline's os.walk loop (fimsys.py lines 86-91): at
each directory level the subdirectory list is filtered by should_exclude on
the joined path before descending, and each file is skipped when
should_exclude matches its full path.  Returns the retained files of the
current directory and the visited files of its retained subtrees separately,
so that os.walk's top-down order (a directory's files before its
subdirectories' contents) is preserved. -/
def walkBuild (m : String → String → Bool) (ps : List String)
    (full rel : String) : List Entry → List VisitedFile × List VisitedFile
  | [] => ([], [])
  | .file n r st :: rest =>
    let acc := walkBuild m ps full rel rest
    if should_exclude m (pjoin full n) ps then acc
    else (⟨pjoin full n, relJoin rel n, r, st⟩ :: acc.1, acc.2)
  | .dir n cs :: rest =>
    let acc := walkBuild m ps full rel rest
    if should_exclude m (pjoin full n) ps then acc
    else
      let sub := walkBuild m ps (pjoin full n) (relJoin rel n) cs
      (acc.1, (sub.1 ++ sub.2) ++ acc.2)

/-- Files visited by build_baseline's walk, in os.walk top-down order. -/
def visitBuild (m : String → String → Bool) (ps : List String)
    (full rel : String) (es : List Entry) : List VisitedFile :=
  (walkBuild m ps full rel es).1 ++ (walkBuild m ps full rel es).2

/-- Traversal of scan_current_state's os.walk loop (fimsys.py lines 116-121),
a second copy of the same traversal logic as build_baseline's. -/
def walkScan (m : String → String → Bool) (ps : List String)
    (full rel : String) : List Entry → List VisitedFile × List VisitedFile
  | [] => ([], [])
  | .file n r st :: rest =>
    let acc := walkScan m ps full rel rest
    if should_exclude m (pjoin full n) ps then acc
    else (⟨pjoin full n, relJoin rel n, r, st⟩ :: acc.1, acc.2)
  | .dir n cs :: rest =>
    let acc := walkScan m ps full rel rest
    if should_exclude m (pjoin full n) ps then acc
    else
      let sub := walkScan m ps (pjoin full n) (relJoin rel n) cs
      (acc.1, (sub.1 ++ sub.2) ++ acc.2)

/-- Files visited by scan_current_state's walk, in os.walk top-down order. -/
def visitScan (m : String → String → Bool) (ps : List String)
    (full rel : String) (es : List Entry) : List VisitedFile :=
  (walkScan m ps full rel es).1 ++ (walkScan m ps full rel es).2

/-- Record assembly of build_baseline's inner loop (fimsys.py lines 92-99):
hash via compute_sha256 (whose uncaught exceptions propagate out of the
whole build), metadata via get_file_metadata. -/
def build_record (sha : List Nat → String) (v : VisitedFile) :
    Except ReadError (String × FileRecord) :=
  match compute_sha256 sha v.read with
  | .error e => .error e
  | .ok h =>
    let md := get_file_metadata v.stat
    .ok (v.rel, { hash := some h, size := md.1, mtime := md.2 })

/-- Record assembly of scan_current_state's inner loop (fimsys.py lines
122-129), a second copy of the same logic as build_baseline's. -/
def scan_record (sha : List Nat → String) (v : VisitedFile) :
    Except ReadError (String × FileRecord) :=
  match compute_sha256 sha v.read with
  | .error e => .error e
  | .ok h =>
    let md := get_file_metadata v.stat
    .ok (v.rel, { hash := some h, size := md.1, mtime := md.2 })

/-- Embedding of build_baseline (fimsys.py lines 76-102): walk the tree,
assemble the per-file records into the files mapping, and wrap it with the
meta envelope (generation time, normalized root).  target_dir stands for the
already-normalized root (normalize_path, line 77, is the identical os library
call in both build_baseline and scan_current_state).  The json.dump
persistence of lines 100-101 is modelled separately by
persist_baseline_states. -/
def build_baseline (sha : List Nat → String) (m : String → String → Bool)
    (ps : List String) (now target_dir : String) (tree : List Entry) :
    Except ReadError BaselineJson :=
  ((visitBuild m ps target_dir "" tree).mapM (build_record sha)).map
    (fun fs => { generated_at := some now, root := some target_dir, files := some fs })

/-- Embedding of scan_current_state (fimsys.py lines 113-130): walk the tree
and assemble the per-file records into the current files mapping. -/
def scan_current_state (sha : List Nat → String) (m : String → String → Bool)
    (ps : List String) (target_dir : String) (tree : List Entry) :
    Except ReadError Files :=
  (visitScan m ps target_dir "" tree).mapM (scan_record sha)

/-- Embedding of load_baseline (fimsys.py lines 105-110): the persisted store
holds either a parsed baseline document or nothing; a FileNotFoundError on
open yields None. -/
def load_baseline (persisted : Option BaselineJson) : Option BaselineJson :=
  persisted

/-- Embedding of run_scan_once (fimsys.py lines 204-213).  The scan is a
function argument invoked only in the baseline-present branch, so the result
on a missing baseline is independent of the scanner; a scanner exception
propagates. -/
def run_scan_once (persisted : Option BaselineJson)
    (scanner : Unit → Except ReadError Files) : Except ReadError Int :=
  match load_baseline persisted with
  | none => .ok 2
  | some baseline =>
    match scanner () with
    | .error e => .error e
    | .ok current =>
      let changes := print_and_log_diffs (compare_baseline_and_current (some baseline) current)
      .ok (if changes = 0 then 0 else 1)

/-- Observable contents of the baseline file during an in-place rewrite, as
performed by open(baseline_file, "w") followed by json.dump (fimsys.py lines
100-101 and 195-196): opening with mode w truncates, and the serialized
document is then appended incrementally, so an interruption can expose any
prefix of the new document; the final state is the complete document. -/
def inPlaceWriteStates (doc : List Nat) : List (List Nat) :=
  (List.range (doc.length + 1)).map (fun i => doc.take i)

/-- Observable baseline-file contents while persisting a baseline document,
with the json serialization abstracted as a parameter ser. -/
def persist_baseline_states (ser : BaselineJson → List Nat) (b : BaselineJson) :
    List (List Nat) :=
  inPlaceWriteStates (ser b)

/-- Error kinds a baseline write can raise (disk full, permission denied). -/
inductive WriteError where
  | diskFull
  | permissionError
deriving DecidableEq, Repr

/-- Outcome of the json.dump persistence attempt inside the monitor loop. -/
inductive PersistOutcome where
  | ok
  | fail (e : WriteError)
deriving DecidableEq, Repr

/-- In-memory state held across monitor_loop cycles: the baseline variable. -/
structure MonitorState where
  baseline : BaselineJson
deriving DecidableEq, Repr

/-- Result of one monitor_loop cycle body: either the loop proceeds to sleep
and the next cycle with the given state, or an uncaught exception (only
KeyboardInterrupt is caught, fimsys.py line 200) propagates out of the loop
with the state the variables held at that point. -/
inductive CycleResult where
  | next (st : MonitorState)
  | crashed (st : MonitorState) (e : WriteError)
deriving DecidableEq, Repr

/-- Embedding of one iteration of monitor_loop's while body (fimsys.py lines
184-199), given the scanned current mapping and the outcome of the
persistence attempt.  When changes are detected and auto-update is on, the
baseline variable is reassigned to the wholesale-replacement document (lines
191-194) before the file write (lines 195-196); a write failure then
propagates with that already-reassigned state. -/
def monitor_cycle (update_baseline : Bool) (now target_dir : String)
    (st : MonitorState) (current : Files) (persist : PersistOutcome) : CycleResult :=
  let diffs := compare_baseline_and_current (some st.baseline) current
  let changes := print_and_log_diffs diffs
  if 0 < changes ∧ update_baseline = true then
    let newBaseline : BaselineJson :=
      { generated_at := some now, root := some target_dir, files := some current }
    match persist with
    | .ok => .next ⟨newBaseline⟩
    | .fail e => .crashed ⟨newBaseline⟩ e
  else .next st

/-- Concrete records used by witness instantiations. -/
def recA : FileRecord := { hash := some "h1", size := some 1, mtime := some 10 }

/-- Concrete record with a different hash from recA, same metadata. -/
def recB : FileRecord := { hash := some "h2", size := some 1, mtime := some 10 }

/-- Concrete record with the same hash as recA, different metadata. -/
def recC : FileRecord := { hash := some "h1", size := some 2, mtime := some 20 }

/-! ### Helper lemmas about files mappings and the diff -/

theorem mem_fkeys_iff (fs : Files) (k : String) :
    k ∈ fkeys fs ↔ ∃ r, lookupF fs k = some r := by
  induction fs with
  | nil => simp [fkeys, lookupF]
  | cons p rest ih =>
    by_cases h : p.1 = k
    · simp only [fkeys, List.map_cons, List.mem_cons, lookupF, if_pos h]
      simp [h]
    · simp only [fkeys, List.map_cons, List.mem_cons, lookupF, if_neg h]
      constructor
      · rintro (h1 | h2)
        · exact absurd h1.symm h
        · exact ih.mp h2
      · intro hr
        exact Or.inr (ih.mpr hr)

theorem not_mem_fkeys_iff (fs : Files) (k : String) :
    (¬ k ∈ fkeys fs) ↔ lookupF fs k = none := by
  rw [mem_fkeys_iff]
  cases h : lookupF fs k <;> simp

theorem mem_keySet_iff (fs : Files) (k : String) :
    k ∈ keySet fs ↔ k ∈ fkeys fs := by
  simp [keySet, List.mem_dedup]

theorem keySet_nodup (fs : Files) : (keySet fs).Nodup :=
  List.nodup_dedup _

theorem filterMap_fst_sublist {β : Type} (f : String → Option (String × β))
    (l : List String) (hf : ∀ a p, f a = some p → p.1 = a) :
    ((l.filterMap f).map Prod.fst).Sublist l := by
  induction l with
  | nil => simp
  | cons a rest ih =>
    cases hfa : f a with
    | none =>
      simp only [List.filterMap_cons, hfa]
      exact ih.cons a
    | some p =>
      simp only [List.filterMap_cons, hfa, List.map_cons]
      rw [hf a p hfa]
      exact ih.cons₂ a

theorem diff_mem_added (b : Option BaselineJson) (cur : Files) (k : String)
    (r : FileRecord) :
    (k, r) ∈ (compare_baseline_and_current b cur).added ↔
      (k ∈ fkeys cur ∧ ¬ k ∈ fkeys (base_files_of b) ∧ lookupF cur k = some r) := by
  simp only [compare_baseline_and_current, List.mem_filterMap, List.mem_filter,
    mem_keySet_iff, Option.map_eq_some', decide_eq_true_eq, Prod.mk.injEq]
  constructor
  · rintro ⟨a, ⟨ha1, ha2⟩, x, hx, hak, hxr⟩
    subst hak
    subst hxr
    exact ⟨ha1, ha2, hx⟩
  · rintro ⟨h1, h2, h3⟩
    exact ⟨k, ⟨h1, h2⟩, r, h3, rfl, rfl⟩

theorem diff_mem_deleted (b : Option BaselineJson) (cur : Files) (k : String)
    (r : FileRecord) :
    (k, r) ∈ (compare_baseline_and_current b cur).deleted ↔
      (k ∈ fkeys (base_files_of b) ∧ ¬ k ∈ fkeys cur ∧
        lookupF (base_files_of b) k = some r) := by
  simp only [compare_baseline_and_current, List.mem_filterMap, List.mem_filter,
    mem_keySet_iff, Option.map_eq_some', decide_eq_true_eq, Prod.mk.injEq]
  constructor
  · rintro ⟨a, ⟨ha1, ha2⟩, x, hx, hak, hxr⟩
    subst hak
    subst hxr
    exact ⟨ha1, ha2, hx⟩
  · rintro ⟨h1, h2, h3⟩
    exact ⟨k, ⟨h1, h2⟩, r, h3, rfl, rfl⟩

theorem diff_mem_modified (b : Option BaselineJson) (cur : Files) (k : String)
    (rb rc : FileRecord) :
    (k, rb, rc) ∈ (compare_baseline_and_current b cur).modified ↔
      (lookupF (base_files_of b) k = some rb ∧ lookupF cur k = some rc ∧
        ¬ rb.hash = rc.hash) := by
  simp only [compare_baseline_and_current, List.mem_filterMap, List.mem_filter,
    mem_keySet_iff, decide_eq_true_eq]
  constructor
  · rintro ⟨a, ⟨ha1, ha2⟩, hfa⟩
    cases hb : lookupF (base_files_of b) a with
    | none => rw [hb] at hfa; exact absurd hfa (by simp)
    | some rb0 =>
      cases hc : lookupF cur a with
      | none => rw [hb, hc] at hfa; exact absurd hfa (by simp)
      | some rc0 =>
        rw [hb, hc] at hfa
        by_cases hh : rb0.hash = rc0.hash
        · simp [hh] at hfa
        · simp only [ne_eq, hh, not_false_eq_true, if_true, if_pos,
            Option.some.injEq, Prod.mk.injEq] at hfa
          obtain ⟨hak, hrb, hrc⟩ := hfa
          subst hak
          subst hrb
          subst hrc
          exact ⟨hb, hc, hh⟩
  · rintro ⟨hb, hc, hh⟩
    refine ⟨k, ⟨?_, ?_⟩, ?_⟩
    · exact (mem_fkeys_iff _ _).mpr ⟨rb, hb⟩
    · exact (mem_fkeys_iff _ _).mpr ⟨rc, hc⟩
    · rw [hb, hc]
      simp [hh]

theorem selfdiff_empty (g rt : Option String) (fs : Files) :
    compare_baseline_and_current (some ⟨g, rt, some fs⟩) fs = ⟨[], [], []⟩ := by
  have hbf : base_files_of (some ⟨g, rt, some fs⟩) = fs := rfl
  simp only [compare_baseline_and_current, hbf, DiffResult.mk.injEq]
  have h1 : (keySet fs).filter (fun k => ¬ k ∈ keySet fs) = [] := by
    rw [List.filter_eq_nil_iff]
    intro a ha
    simp [ha]
  refine ⟨by rw [h1]; rfl, by rw [h1]; rfl, ?_⟩
  rw [List.filterMap_eq_nil_iff]
  intro a ha
  rw [List.mem_filter] at ha
  obtain ⟨r, hr⟩ := (mem_fkeys_iff fs a).mp ((mem_keySet_iff fs a).mp ha.1)
  simp [hr]

/-- Reduction of run_scan_once when a baseline is present and the scan
succeeds: the change code is 0 or 1 by the change count. -/
theorem run_scan_once_some (b : BaselineJson) (current : Files) :
    run_scan_once (some b) (fun _ => Except.ok current)
      = Except.ok
          (if print_and_log_diffs (compare_baseline_and_current (some b) current) = 0
            then 0 else 1) := rfl

/-- The change count is zero exactly when all three diff lists are empty. -/
theorem print_and_log_diffs_eq_zero (d : DiffResult) :
    print_and_log_diffs d = 0 ↔ d = ⟨[], [], []⟩ := by
  cases d with
  | mk a del m =>
    simp only [print_and_log_diffs, DiffResult.mk.injEq]
    constructor
    · intro h
      exact ⟨List.eq_nil_of_length_eq_zero (by omega),
        List.eq_nil_of_length_eq_zero (by omega),
        List.eq_nil_of_length_eq_zero (by omega)⟩
    · rintro ⟨rfl, rfl, rfl⟩
      rfl

/-- C1: the diff computed by compare_baseline_and_current classifies exactly
by path-key set algebra: added is the set of paths in current but not in the
baseline files (carrying current's record), deleted the set of paths in the
baseline files but not in current (carrying the baseline record), and
modified exactly the common paths whose hash fields differ; equal hashes
never yield a modified entry, whatever size and mtime are. -/
theorem C1_diff_set_algebra (b : Option BaselineJson) (current : Files) :
    (∀ k r, (k, r) ∈ (compare_baseline_and_current b current).added ↔
        (k ∈ fkeys current ∧ ¬ k ∈ fkeys (base_files_of b) ∧
          lookupF current k = some r))
  ∧ (∀ k r, (k, r) ∈ (compare_baseline_and_current b current).deleted ↔
        (k ∈ fkeys (base_files_of b) ∧ ¬ k ∈ fkeys current ∧
          lookupF (base_files_of b) k = some r))
  ∧ (∀ k rb rc, (k, rb, rc) ∈ (compare_baseline_and_current b current).modified ↔
        (k ∈ fkeys (base_files_of b) ∧ k ∈ fkeys current ∧
          lookupF (base_files_of b) k = some rb ∧ lookupF current k = some rc ∧
          ¬ rb.hash = rc.hash))
  ∧ (∀ k rb rc, rb.hash = rc.hash →
        ¬ (k, rb, rc) ∈ (compare_baseline_and_current b current).modified) := by
  refine ⟨diff_mem_added b current, diff_mem_deleted b current, ?_, ?_⟩
  · intro k rb rc
    rw [diff_mem_modified]
    constructor
    · rintro ⟨h1, h2, h3⟩
      exact ⟨(mem_fkeys_iff _ _).mpr ⟨rb, h1⟩, (mem_fkeys_iff _ _).mpr ⟨rc, h2⟩,
        h1, h2, h3⟩
    · rintro ⟨_, _, h1, h2, h3⟩
      exact ⟨h1, h2, h3⟩
  · intro k rb rc hh hmem
    exact ((diff_mem_modified b current k rb rc).mp hmem).2.2 hh

/-- Witness for C1 at a concrete baseline and current mapping. -/
theorem C1_diff_set_algebra_witness :
    ("a", recB) ∈ (compare_baseline_and_current
      (some ⟨some "t", some "r", some [("b", recA)]⟩) [("a", recB)]).added :=
  ((C1_diff_set_algebra (some ⟨some "t", some "r", some [("b", recA)]⟩)
    [("a", recB)]).1 "a" recB).mpr (by decide)

/-- C3: the diff is disjoint: the path lists of added, deleted and modified
are each duplicate-free, and no path occurs in two of the three lists. -/
theorem C3_diff_disjoint (b : Option BaselineJson) (current : Files) :
    ((compare_baseline_and_current b current).added.map Prod.fst).Nodup
  ∧ ((compare_baseline_and_current b current).deleted.map Prod.fst).Nodup
  ∧ ((compare_baseline_and_current b current).modified.map Prod.fst).Nodup
  ∧ (∀ k, k ∈ (compare_baseline_and_current b current).added.map Prod.fst →
      ¬ k ∈ (compare_baseline_and_current b current).deleted.map Prod.fst)
  ∧ (∀ k, k ∈ (compare_baseline_and_current b current).added.map Prod.fst →
      ¬ k ∈ (compare_baseline_and_current b current).modified.map Prod.fst)
  ∧ (∀ k, k ∈ (compare_baseline_and_current b current).deleted.map Prod.fst →
      ¬ k ∈ (compare_baseline_and_current b current).modified.map Prod.fst) := by
  refine ⟨?_, ?_, ?_, ?_, ?_, ?_⟩
  · refine List.Nodup.sublist (filterMap_fst_sublist _ _ ?_) ((keySet_nodup current).filter _)
    intro a p hp
    obtain ⟨x, _, h2⟩ := Option.map_eq_some'.mp hp
    subst h2
    rfl
  · refine List.Nodup.sublist (filterMap_fst_sublist _ _ ?_)
      ((keySet_nodup (base_files_of b)).filter _)
    intro a p hp
    obtain ⟨x, _, h2⟩ := Option.map_eq_some'.mp hp
    subst h2
    rfl
  · refine List.Nodup.sublist (filterMap_fst_sublist _ _ ?_)
      ((keySet_nodup (base_files_of b)).filter _)
    intro a p hp
    cases hb : lookupF (base_files_of b) a with
    | none => rw [hb] at hp; exact absurd hp (by simp)
    | some rb =>
      cases hc : lookupF current a with
      | none => rw [hb, hc] at hp; exact absurd hp (by simp)
      | some rc =>
        rw [hb, hc] at hp
        by_cases hh : rb.hash = rc.hash
        · simp [hh] at hp
        · simp only [ne_eq, hh, not_false_eq_true, if_pos, Option.some.injEq] at hp
          rw [← hp]
  · intro k hk1 hk2
    rw [List.mem_map] at hk1 hk2
    obtain ⟨x, hx, hxk⟩ := hk1
    obtain ⟨y, hy, hyk⟩ := hk2
    have hax := (diff_mem_added b current x.1 x.2).mp (by simpa using hx)
    have hdy := (diff_mem_deleted b current y.1 y.2).mp (by simpa using hy)
    rw [hxk] at hax
    rw [hyk] at hdy
    exact hax.2.1 hdy.1
  · intro k hk1 hk2
    rw [List.mem_map] at hk1 hk2
    obtain ⟨x, hx, hxk⟩ := hk1
    obtain ⟨z, hz, hzk⟩ := hk2
    have hax := (diff_mem_added b current x.1 x.2).mp (by simpa using hx)
    have hmz := (diff_mem_modified b current z.1 z.2.1 z.2.2).mp (by simpa using hz)
    rw [hxk] at hax
    rw [hzk] at hmz
    exact hax.2.1 ((mem_fkeys_iff _ _).mpr ⟨z.2.1, hmz.1⟩)
  · intro k hk1 hk2
    rw [List.mem_map] at hk1 hk2
    obtain ⟨y, hy, hyk⟩ := hk1
    obtain ⟨z, hz, hzk⟩ := hk2
    have hdy := (diff_mem_deleted b current y.1 y.2).mp (by simpa using hy)
    have hmz := (diff_mem_modified b current z.1 z.2.1 z.2.2).mp (by simpa using hz)
    rw [hyk] at hdy
    rw [hzk] at hmz
    exact hdy.2.1 ((mem_fkeys_iff _ _).mpr ⟨z.2.2, hmz.2.1⟩)

/-- Witness for C3 at a concrete baseline and current mapping. -/
theorem C3_diff_disjoint_witness :
    ¬ "a" ∈ (compare_baseline_and_current none [("a", recA)]).deleted.map Prod.fst :=
  (C3_diff_disjoint none [("a", recA)]).2.2.2.1 "a" (by decide)

/-- C10: compare_baseline_and_current is total in its baseline argument: a
None baseline, or a baseline document without a files key, is treated as the
empty file set, so the result equals the diff against no baseline, every
current path is reported as added with its record, and deleted and modified
are empty. -/
theorem C10_missing_baseline_total (b : Option BaselineJson) (current : Files)
    (hb : b = none ∨ ∃ g rt, b = some ⟨g, rt, none⟩) :
    compare_baseline_and_current b current
      = compare_baseline_and_current none current
  ∧ (compare_baseline_and_current b current).deleted = []
  ∧ (compare_baseline_and_current b current).modified = []
  ∧ (∀ k r, (k, r) ∈ (compare_baseline_and_current b current).added ↔
      (k ∈ fkeys current ∧ lookupF current k = some r)) := by
  have hbf : base_files_of b = [] := by
    rcases hb with rfl | ⟨g, rt, rfl⟩
    · rfl
    · rfl
  have heq : compare_baseline_and_current b current
      = compare_baseline_and_current none current := by
    simp only [compare_baseline_and_current, hbf]
    rfl
  refine ⟨heq, ?_, ?_, ?_⟩
  · rw [heq]
    rfl
  · rw [heq]
    rfl
  · intro k r
    rw [diff_mem_added]
    rw [hbf]
    simp [fkeys]

/-- Witness for C10 at a baseline document lacking the files key. -/
theorem C10_missing_baseline_total_witness :
    (compare_baseline_and_current (some ⟨some "t", some "r", none⟩)
        [("a", recA)]).deleted = []
  ∧ (compare_baseline_and_current (some ⟨some "t", some "r", none⟩)
        [("a", recA)]).modified = [] :=
  ⟨(C10_missing_baseline_total (some ⟨some "t", some "r", none⟩) [("a", recA)]
      (Or.inr ⟨some "t", some "r", rfl⟩)).2.1,
   (C10_missing_baseline_total (some ⟨some "t", some "r", none⟩) [("a", recA)]
      (Or.inr ⟨some "t", some "r", rfl⟩)).2.2.1⟩

/-- C5: run_scan_once yields code 2 when load_baseline finds no persisted
baseline, and in that case the result is independent of the scanner, which is
never invoked (the first two conjuncts); with a baseline present it yields
code 0 exactly when the computed diff is empty and code 1 exactly when some
added, deleted or modified entry was found. -/
theorem C5_scan_once_codes (s1 s2 : Unit → Except ReadError Files)
    (b : BaselineJson) (current : Files) :
    run_scan_once none s1 = Except.ok 2
  ∧ run_scan_once none s1 = run_scan_once none s2
  ∧ (run_scan_once (some b) (fun _ => Except.ok current) = Except.ok 0 ↔
      compare_baseline_and_current (some b) current = ⟨[], [], []⟩)
  ∧ (run_scan_once (some b) (fun _ => Except.ok current) = Except.ok 1 ↔
      ¬ compare_baseline_and_current (some b) current = ⟨[], [], []⟩) := by
  refine ⟨rfl, rfl, ?_, ?_⟩
  · rw [run_scan_once_some]
    by_cases h : print_and_log_diffs (compare_baseline_and_current (some b) current) = 0
    · rw [if_pos h]
      constructor
      · intro _
        exact (print_and_log_diffs_eq_zero _).mp h
      · intro _
        rfl
    · rw [if_neg h]
      constructor
      · intro hok
        exact absurd (Except.ok.inj hok) (by decide)
      · intro hc
        exact absurd ((print_and_log_diffs_eq_zero _).mpr hc) h
  · rw [run_scan_once_some]
    by_cases h : print_and_log_diffs (compare_baseline_and_current (some b) current) = 0
    · rw [if_pos h]
      constructor
      · intro hok
        exact absurd (Except.ok.inj hok) (by decide)
      · intro hc
        exact absurd ((print_and_log_diffs_eq_zero _).mp h) hc
    · rw [if_neg h]
      constructor
      · intro _
        intro hc
        exact h ((print_and_log_diffs_eq_zero _).mpr hc)
      · intro _
        rfl

/-- C4 counterexample: an IsADirectoryError is caught by neither except
clause of compute_sha256, so the digest operation propagates the exception
instead of returning a sentinel string. -/
theorem C4_counterexample :
    compute_sha256 (fun _ => "") (ReadResult.err ReadError.isADirectoryError)
      = Except.error ReadError.isADirectoryError := rfl

/-- C4 amended: compute_sha256 returns the hex digest on success and the
sentinel string for exactly the two caught error kinds, PermissionError and
FileNotFoundError; any other I/O error propagates as an exception. -/
theorem C4_sentinel_only_for_caught (sha : List Nat → String) :
    (∀ bytes, compute_sha256 sha (ReadResult.ok bytes) = Except.ok (sha bytes))
  ∧ compute_sha256 sha (ReadResult.err ReadError.permissionError)
      = Except.ok "<ERROR:PermissionError>"
  ∧ compute_sha256 sha (ReadResult.err ReadError.fileNotFoundError)
      = Except.ok "<ERROR:FileNotFoundError>"
  ∧ (∀ e, ¬ e = ReadError.permissionError → ¬ e = ReadError.fileNotFoundError →
      compute_sha256 sha (ReadResult.err e) = Except.error e) := by
  refine ⟨fun bytes => rfl, rfl, rfl, ?_⟩
  intro e h1 h2
  cases e with
  | permissionError => exact absurd rfl h1
  | fileNotFoundError => exact absurd rfl h2
  | isADirectoryError => rfl
  | oSError => rfl

/-- Witness for the amended C4 at a concrete uncaught error kind. -/
theorem C4_sentinel_only_for_caught_witness :
    compute_sha256 (fun _ => "d") (ReadResult.err ReadError.oSError)
      = Except.error ReadError.oSError :=
  (C4_sentinel_only_for_caught (fun _ => "d")).2.2.2 ReadError.oSError
    (by decide) (by decide)

/-! ### Helper lemmas about the traversal and Except -/

theorem except_bind_ok {e a b : Type} (x : a) (g : a → Except e b) :
    (Except.ok x >>= g : Except e b) = g x := rfl

theorem except_bind_err {e a b : Type} (er : e) (g : a → Except e b) :
    (Except.error er >>= g : Except e b) = Except.error er := rfl

theorem walkBuild_eq_walkScan (m : String → String → Bool) (ps : List String) :
    (full : String) → (rel : String) → (es : List Entry) →
      walkBuild m ps full rel es = walkScan m ps full rel es
  | _, _, [] => by simp [walkBuild, walkScan]
  | full, rel, .file n r st :: rest => by
    have ih := walkBuild_eq_walkScan m ps full rel rest
    simp only [walkBuild, walkScan, ih]
  | full, rel, .dir n cs :: rest => by
    have ih1 := walkBuild_eq_walkScan m ps full rel rest
    have ih2 := walkBuild_eq_walkScan m ps (pjoin full n) (relJoin rel n) cs
    simp only [walkBuild, walkScan, ih1, ih2]

theorem visitBuild_eq_visitScan (m : String → String → Bool) (ps : List String)
    (full rel : String) (es : List Entry) :
    visitBuild m ps full rel es = visitScan m ps full rel es := by
  unfold visitBuild visitScan
  rw [walkBuild_eq_walkScan]

theorem walkScan_prune (m : String → String → Bool) (ps : List String)
    (full rel : String) (post : List Entry) (n : String) (cs : List Entry)
    (h : should_exclude m (pjoin full n) ps = true) :
    (pre : List Entry) →
      walkScan m ps full rel (pre ++ Entry.dir n cs :: post)
        = walkScan m ps full rel (pre ++ post)
  | [] => by
    simp only [List.nil_append, walkScan, h, if_true]
  | .file n0 r st :: pre => by
    have ih := walkScan_prune m ps full rel post n cs h pre
    simp only [List.cons_append, walkScan, ih]
  | .dir n0 cs0 :: pre => by
    have ih := walkScan_prune m ps full rel post n cs h pre
    simp only [List.cons_append, walkScan, ih]

theorem walkScan_retained (m : String → String → Bool) (ps : List String) :
    (full : String) → (rel : String) → (es : List Entry) → (v : VisitedFile) →
      (v ∈ (walkScan m ps full rel es).1 ∨ v ∈ (walkScan m ps full rel es).2) →
      should_exclude m v.full ps = false
  | full, rel, [], v => by
    intro hv
    simp [walkScan] at hv
  | full, rel, .file n r st :: rest, v => by
    intro hv
    by_cases hx : should_exclude m (pjoin full n) ps = true
    · simp only [walkScan, hx, if_true] at hv
      exact walkScan_retained m ps full rel rest v hv
    · simp only [walkScan, hx, if_false, Bool.false_eq_true] at hv
      rcases hv with hv | hv
      · rcases List.mem_cons.mp hv with rfl | hv2
        · simpa using hx
        · exact walkScan_retained m ps full rel rest v (Or.inl hv2)
      · exact walkScan_retained m ps full rel rest v (Or.inr hv)
  | full, rel, .dir n cs :: rest, v => by
    intro hv
    by_cases hx : should_exclude m (pjoin full n) ps = true
    · simp only [walkScan, hx, if_true] at hv
      exact walkScan_retained m ps full rel rest v hv
    · simp only [walkScan, hx, if_false, Bool.false_eq_true] at hv
      rcases hv with hv | hv
      · exact walkScan_retained m ps full rel rest v (Or.inl hv)
      · rcases List.mem_append.mp hv with hv2 | hv2
        · rcases List.mem_append.mp hv2 with hv3 | hv3
          · exact walkScan_retained m ps (pjoin full n) (relJoin rel n) cs v (Or.inl hv3)
          · exact walkScan_retained m ps (pjoin full n) (relJoin rel n) cs v (Or.inr hv3)
        · exact walkScan_retained m ps full rel rest v (Or.inr hv2)

theorem mapM_ok_mem {e a b : Type} (f : a → Except e b) :
    (l : List a) → (out : List b) → l.mapM f = Except.ok out →
      ∀ y ∈ out, ∃ x ∈ l, f x = Except.ok y
  | [], out => by
    intro h y hy
    rw [List.mapM_nil] at h
    cases h
    simp at hy
  | x :: l, out => by
    intro h y hy
    rw [List.mapM_cons] at h
    cases hfx : f x with
    | error er =>
      rw [hfx, except_bind_err] at h
      cases h
    | ok v =>
      rw [hfx, except_bind_ok] at h
      cases hml : l.mapM f with
      | error er =>
        rw [hml, except_bind_err] at h
        cases h
      | ok bs =>
        rw [hml, except_bind_ok] at h
        cases h
        rcases List.mem_cons.mp hy with rfl | hy2
        · exact ⟨x, List.mem_cons_self x l, hfx⟩
        · obtain ⟨x0, hx0, hfx0⟩ := mapM_ok_mem f l bs hml y hy2
          exact ⟨x0, List.mem_cons_of_mem x hx0, hfx0⟩

/-- C2: diffing a snapshot produced by a scan against a baseline whose files
mapping equals that snapshot yields empty added, deleted and modified lists,
whatever the baseline's meta fields are. -/
theorem C2_selfdiff_after_scan (sha : List Nat → String)
    (m : String → String → Bool) (ps : List String) (target_dir : String)
    (tree : List Entry) (fs : Files) (g rt : Option String)
    (_h : scan_current_state sha m ps target_dir tree = Except.ok fs) :
    compare_baseline_and_current (some ⟨g, rt, some fs⟩) fs = ⟨[], [], []⟩ :=
  selfdiff_empty g rt fs

/-- Witness for C2: a one-file tree, scanned, then diffed against itself. -/
theorem C2_selfdiff_after_scan_witness :
    compare_baseline_and_current
        (some ⟨some "t", some "r", some [("a", ⟨some "H", some 1, some 10⟩)]⟩)
        [("a", ⟨some "H", some 1, some 10⟩)]
      = ⟨[], [], []⟩ :=
  C2_selfdiff_after_scan (fun _ => "H") (fun _ _ => false) [] "r"
    [Entry.file "a" (ReadResult.ok [1]) (some (1, 10))]
    [("a", ⟨some "H", some 1, some 10⟩)] (some "t") (some "r")
    (by simp [scan_current_state, visitScan, walkScan, should_exclude, pjoin,
      relJoin, scan_record, compute_sha256, get_file_metadata, List.mapM.loop,
      except_bind_ok])

/-- C7: an excluded directory is pruned before descending, at any depth of
the traversal, so it contributes zero entries to the snapshot (the scan of a
tree containing it equals the scan of the tree without it), and every path
recorded in a successful scan comes from a visited file on which
should_exclude was false, that is, no pattern matched its full path or its
base name. -/
theorem C7_exclusion (sha : List Nat → String) (m : String → String → Bool)
    (ps : List String) (target_dir : String) :
    (∀ full rel pre post n cs, should_exclude m (pjoin full n) ps = true →
        visitScan m ps full rel (pre ++ Entry.dir n cs :: post)
          = visitScan m ps full rel (pre ++ post))
  ∧ (∀ pre post n cs, should_exclude m (pjoin target_dir n) ps = true →
        scan_current_state sha m ps target_dir (pre ++ Entry.dir n cs :: post)
          = scan_current_state sha m ps target_dir (pre ++ post))
  ∧ (∀ tree out, scan_current_state sha m ps target_dir tree = Except.ok out →
        ∀ k r, (k, r) ∈ out →
          ∃ v, v ∈ visitScan m ps target_dir "" tree ∧ v.rel = k ∧
            should_exclude m v.full ps = false) := by
  refine ⟨?_, ?_, ?_⟩
  · intro full rel pre post n cs h
    unfold visitScan
    rw [walkScan_prune m ps full rel post n cs h pre]
  · intro pre post n cs h
    unfold scan_current_state visitScan
    rw [walkScan_prune m ps target_dir "" post n cs h pre]
  · intro tree out hscan k r hkr
    obtain ⟨v, hv, hfv⟩ := mapM_ok_mem (scan_record sha) _ _ hscan (k, r) hkr
    refine ⟨v, hv, ?_, ?_⟩
    · unfold scan_record at hfv
      cases hcs : compute_sha256 sha v.read with
      | error er => rw [hcs] at hfv; cases hfv
      | ok hsh =>
        rw [hcs] at hfv
        exact congrArg Prod.fst (Except.ok.inj hfv)
    · exact walkScan_retained m ps target_dir "" tree v (List.mem_append.mp hv)

/-- Witness for C7: a concrete excluded subdirectory is pruned. -/
theorem C7_exclusion_witness :
    scan_current_state (fun _ => "H") (fun p pat => p == pat) ["r/x"] "r"
        [Entry.dir "x" []]
      = scan_current_state (fun _ => "H") (fun p pat => p == pat) ["r/x"] "r"
        [] :=
  (C7_exclusion (fun _ => "H") (fun p pat => p == pat) ["r/x"] "r").2.1 [] [] "x"
    [] (by decide)

/-- C9: for the same tree and exclusion patterns, build_baseline returns
exactly the scan_current_state mapping wrapped in the meta envelope: the
duplicated traversal loops of the two functions are equivalent, recording the
same paths with the same hash, size and mtime records. -/
theorem C9_build_files_eq_scan (sha : List Nat → String)
    (m : String → String → Bool) (ps : List String) (now target_dir : String)
    (tree : List Entry) :
    build_baseline sha m ps now target_dir tree
      = (scan_current_state sha m ps target_dir tree).map
          (fun fs => BaselineJson.mk (some now) (some target_dir) (some fs)) := by
  unfold build_baseline scan_current_state
  rw [visitBuild_eq_visitScan]
  have hrec : build_record sha = scan_record sha := rfl
  rw [hrec]

/-- C8 counterexample: with auto-update on and a detected change, the loop
reassigns its in-memory baseline variable to the new snapshot BEFORE the file
write, so when the persistence attempt fails the state carried out of the
loop already holds the new baseline, not the one from before the failed
attempt (and the loop has crashed, so no subsequent cycle runs at all). -/
theorem C8_counterexample :
    monitor_cycle true "t1" "r" ⟨⟨some "t0", some "r", some []⟩⟩ [("a", recA)]
        (PersistOutcome.fail WriteError.diskFull)
      = CycleResult.crashed ⟨⟨some "t1", some "r", some [("a", recA)]⟩⟩
          WriteError.diskFull
  ∧ ¬ (⟨some "t1", some "r", some [("a", recA)]⟩ : BaselineJson)
        = ⟨some "t0", some "r", some []⟩ := by
  constructor
  · decide
  · decide

/-- C8 amended: if persisting the auto-updated baseline fails, the exception
propagates and terminates the monitor loop (the failure is surfaced, not
swallowed, and no further cycle runs); the in-memory baseline variable had
already been reassigned to the wholesale-replacement document before the
write. -/
theorem C8_persist_failure_crashes (upd : Bool) (now target_dir : String)
    (st : MonitorState) (current : Files) (e : WriteError)
    (h1 : 0 < print_and_log_diffs
        (compare_baseline_and_current (some st.baseline) current))
    (h2 : upd = true) :
    monitor_cycle upd now target_dir st current (PersistOutcome.fail e)
      = CycleResult.crashed
          ⟨BaselineJson.mk (some now) (some target_dir) (some current)⟩ e := by
  simp only [monitor_cycle]
  rw [if_pos ⟨h1, h2⟩]

/-- Witness for the amended C8 at a concrete failing persistence. -/
theorem C8_persist_failure_crashes_witness :
    monitor_cycle true "t1" "r" ⟨⟨some "t0", some "r", some []⟩⟩ [("b", recB)]
        (PersistOutcome.fail WriteError.permissionError)
      = CycleResult.crashed ⟨⟨some "t1", some "r", some [("b", recB)]⟩⟩
          WriteError.permissionError :=
  C8_persist_failure_crashes true "t1" "r" ⟨⟨some "t0", some "r", some []⟩⟩
    [("b", recB)] WriteError.permissionError (by decide) rfl

/-- C6 counterexample: the in-place rewrite of the baseline file is not
atomic: writing the new serialized document 23 over an old baseline document
1 exposes the truncated state (the empty file), which is neither the old nor
the new complete document. -/
theorem C6_counterexample :
    ¬ ∀ s ∈ persist_baseline_states (fun _ => [2, 3]) ⟨none, none, none⟩,
        s = [1] ∨ s = [2, 3] := by decide

/-- C6 amended: persistence overwrites the baseline file in place, so an
interrupted write can leave any prefix of the new serialized document (never
a mix with the old one); only the final observable state is the complete new
document. -/
theorem C6_inplace_write_exposes_prefixes (ser : BaselineJson → List Nat)
    (b : BaselineJson) :
    (∀ s ∈ persist_baseline_states ser b, s <+: ser b)
  ∧ ser b ∈ persist_baseline_states ser b
  ∧ (persist_baseline_states ser b).getLast? = some (ser b) := by
  refine ⟨?_, ?_, ?_⟩
  · intro s hs
    simp only [persist_baseline_states, inPlaceWriteStates, List.mem_map,
      List.mem_range] at hs
    obtain ⟨i, hi, rfl⟩ := hs
    exact List.take_prefix i (ser b)
  · simp only [persist_baseline_states, inPlaceWriteStates, List.mem_map,
      List.mem_range]
    exact ⟨(ser b).length, by omega, List.take_length _⟩
  · simp only [persist_baseline_states, inPlaceWriteStates, List.range_succ,
      List.map_append, List.map_cons, List.map_nil, List.getLast?_concat,
      List.take_length]

/-- Witness for the amended C6 at a concrete serialized document. -/
theorem C6_inplace_write_exposes_prefixes_witness :
    ([5] : List Nat) <+: [5, 6]
  ∧ ([5, 6] : List Nat) ∈ persist_baseline_states (fun _ => [5, 6])
      ⟨none, none, none⟩ :=
  ⟨(C6_inplace_write_exposes_prefixes (fun _ => [5, 6]) ⟨none, none, none⟩).1
      [5] (by decide),
   (C6_inplace_write_exposes_prefixes (fun _ => [5, 6]) ⟨none, none, none⟩).2.1⟩
